import Mathlib

/-!
Shallow embedding of the tempotuner pitch-detection and note-stability core.

The numeric domain of the source is JavaScript `number`.  Finite values are
idealised as real numbers; the special values `NaN`, `Infinity` and
`-Infinity`, which the note mapper's degenerate-input guard is about, are
modelled explicitly by the `JSVal` type together with the IEEE-754
propagation rules of the operations the mapper actually performs
(division, `Math.log2`, scaling, `Math.round`).

Embedded source (translated definition by definition):
* `utils/note-utils.ts`: `NOTES_SHARP`, `NOTES_FLAT`, `findClosestNote`.
* `utils/audio-processing.ts`: `SIGNAL_THRESHOLD`, `MIN_FREQUENCY`,
  `MAX_FREQUENCY`, `FREQUENCY_BUFFER_SIZE`, `getRMS`, `detectPitchYIN`
  (difference function, CMNDF, threshold scan, fallback, parabolic
  interpolation), `getMedianFrequency`, `isFrequencyConsistent`,
  `correctOctaveError`.
* `utils/note-detector.ts`: `NoteDetector` (frequency buffer, hysteresis
  counter, `detectNote`), modelled as explicit state passing.
* `hooks/use-tuner.ts`: the per-frame `analyzeAudio` step, modelled as a
  transition on the hook's display state; the deferred `SIGNAL_HOLD_TIME`
  reset timer is modelled by the `holdTimerPending` flag (the timer
  callback itself fires outside the analysis cycle).
-/

namespace Tempotuner

open Real

/-- A JavaScript `number`: a finite value (idealised as a real), `NaN`,
`Infinity` or `-Infinity`. -/
inductive JSVal where
  | fin (x : ℝ)
  | nan
  | posInf
  | negInf

/-- `Number.isFinite`. -/
def JSVal.isFinite : JSVal → Bool
  | .fin _ => true
  | _ => false

/-- JS division `x / y` (IEEE-754 semantics; the two signed zeros are
idealised as the single real zero, with `x / 0 = ±Infinity` by the sign
of `x` and `0 / 0 = NaN`). -/
noncomputable def jsDiv : JSVal → JSVal → JSVal
  | .nan, _ => .nan
  | _, .nan => .nan
  | .posInf, .posInf => .nan
  | .posInf, .negInf => .nan
  | .negInf, .posInf => .nan
  | .negInf, .negInf => .nan
  | .posInf, .fin y => if y < 0 then .negInf else .posInf
  | .negInf, .fin y => if y < 0 then .posInf else .negInf
  | .fin _, .posInf => .fin 0
  | .fin _, .negInf => .fin 0
  | .fin x, .fin y =>
      if y = 0 then (if 0 < x then .posInf else if x < 0 then .negInf else .nan)
      else .fin (x / y)

/-- JS `Math.log2`: `NaN` on negative or `NaN` input, `-Infinity` at `0`,
`Infinity` at `Infinity`. -/
noncomputable def jsLog2 : JSVal → JSVal
  | .fin x => if 0 < x then .fin (Real.logb 2 x) else if x = 0 then .negInf else .nan
  | .nan => .nan
  | .posInf => .posInf
  | .negInf => .nan

/-- JS multiplication by a finite constant `c`. -/
noncomputable def jsMul (c : ℝ) : JSVal → JSVal
  | .fin x => .fin (c * x)
  | .nan => .nan
  | .posInf => if 0 < c then .posInf else if c < 0 then .negInf else .nan
  | .negInf => if 0 < c then .negInf else if c < 0 then .posInf else .nan

/-- JS `Math.round` (halves round toward positive infinity, matching
Mathlib's `round`); `NaN` and the infinities are returned unchanged. -/
noncomputable def jsRound : JSVal → JSVal
  | .fin x => .fin ((round x : ℤ) : ℝ)
  | v => v

/-- JS comparison `v < r` against a finite constant (`NaN < r` is false). -/
noncomputable def JSVal.ltR : JSVal → ℝ → Bool
  | .fin x, r => decide (x < r)
  | .nan, _ => false
  | .posInf, _ => false
  | .negInf, _ => true

/-- JS comparison `v > r` against a finite constant (`NaN > r` is false). -/
noncomputable def JSVal.gtR : JSVal → ℝ → Bool
  | .fin x, r => decide (r < x)
  | .nan, _ => false
  | .posInf, _ => true
  | .negInf, _ => false

/-! ### `utils/note-utils.ts` -/

/-- Note names with sharps (`NOTES_SHARP`), written in three chunks of
four pitch classes. -/
def NOTES_SHARP : List String :=
  ["C", "C#", "D", "D#"] ++ ["E", "F", "F#", "G"] ++ ["G#", "A", "A#", "B"]

/-- Note names with flats (`NOTES_FLAT`), written in three chunks of four
pitch classes. -/
def NOTES_FLAT : List String :=
  ["C", "Db", "D", "Eb"] ++ ["E", "F", "Gb", "G"] ++ ["Ab", "A", "Bb", "B"]

/-- Default reference frequency for A4 (`DEFAULT_A4_FREQ`). -/
def DEFAULT_A4_FREQ : ℝ := 440

/-- Tuning classification of the `tuningStatus` string union. -/
inductive TuningStatus where
  | flat
  | sharp
  | inTune
deriving DecidableEq

/-- `NoteInfo` record of `note-utils.ts`. -/
structure NoteInfo where
  note : String
  noteName : String
  octave : ℤ
  frequency : JSVal
  exactFrequency : JSVal
  cents : JSVal
  tuningStatus : TuningStatus

/-- The source's `positiveMod(n, m) = ((n % m) + m) % m`; JS `%` on
integral values is the truncated remainder `Int.tmod`. -/
def positiveMod (n m : ℤ) : ℤ := (n.tmod m + m).tmod m

/-- The MIDI note number `69 + roundedSemitone`. -/
def midiNoteOf (roundedSemitone : ℤ) : ℤ := 69 + roundedSemitone

/-- `Math.floor((midiNote - 12) / 12)`: floor division of integers. -/
def octaveOf (roundedSemitone : ℤ) : ℤ := Int.fdiv (midiNoteOf roundedSemitone - 12) 12

/-- `positiveMod(midiNote - 12, 12)`. -/
def noteIndexOf (roundedSemitone : ℤ) : ℤ := positiveMod (midiNoteOf roundedSemitone - 12) 12

/-- The note-name table lookup `useFlats ? NOTES_FLAT[i] : NOTES_SHARP[i]`. -/
def noteNameOf (useFlats : Bool) (roundedSemitone : ℤ) : String :=
  (if useFlats then NOTES_FLAT else NOTES_SHARP).getD (noteIndexOf roundedSemitone).toNat ""

/-- The explicit fallback record returned on a degenerate input (note `?`,
octave `0`, zero cents, `in-tune`, `exactFrequency` echoing the input). -/
def unknownNoteInfo (frequency : JSVal) : NoteInfo :=
  { note := "?", noteName := "?", octave := 0, frequency := frequency,
    exactFrequency := frequency, cents := .fin 0, tuningStatus := .inTune }

/-- `cents < -5 ? flat : cents > 5 ? sharp : in-tune`. -/
noncomputable def statusOfCents (cents : JSVal) : TuningStatus :=
  if cents.ltR (-5) then .flat else if cents.gtR 5 then .sharp else .inTune

/-- `findClosestNote` of `note-utils.ts`.  When `semitoneFromA4` is not
finite, neither are `roundedSemitone`, `midiNote` and `noteIndex`, so the
source's `!Number.isFinite(noteIndex)` guard fires and the fallback record
is returned; the match on the finiteness of `semitoneFromA4` captures
exactly that.  The explicit `noteIndex < 0 || noteIndex >= 12` check of
the source is kept verbatim in the finite branch. -/
noncomputable def findClosestNoteMain (frequency : JSVal) (referenceFreq : ℝ) (useFlats : Bool)
    (semitoneFromA4 : ℝ) : NoteInfo :=
  let roundedSemitone : ℤ := round semitoneFromA4
  if noteIndexOf roundedSemitone < 0 ∨ 12 ≤ noteIndexOf roundedSemitone then
    unknownNoteInfo frequency
  else
    let exactFrequency : ℝ := referenceFreq * (2 : ℝ) ^ ((roundedSemitone : ℝ) / 12)
    let cents : JSVal := jsRound (jsMul 1200 (jsLog2 (jsDiv frequency (JSVal.fin exactFrequency))))
    { note := noteNameOf useFlats roundedSemitone ++ toString (octaveOf roundedSemitone),
      noteName := noteNameOf useFlats roundedSemitone,
      octave := octaveOf roundedSemitone,
      frequency := frequency,
      exactFrequency := JSVal.fin exactFrequency,
      cents := cents,
      tuningStatus := statusOfCents cents }

noncomputable def findClosestNote (frequency : JSVal) (referenceFreq : ℝ) (useFlats : Bool) :
    NoteInfo :=
  match jsMul 12 (jsLog2 (jsDiv frequency (JSVal.fin referenceFreq))) with
  | JSVal.fin semitoneFromA4 => findClosestNoteMain frequency referenceFreq useFlats semitoneFromA4
  | _ => unknownNoteInfo frequency

/-! ### `utils/audio-processing.ts` -/

/-- `SIGNAL_THRESHOLD`: minimum RMS level to consider as signal. -/
def SIGNAL_THRESHOLD : ℝ := 0.01

/-- `MIN_FREQUENCY`: A0, lowest piano note. -/
def MIN_FREQUENCY : ℝ := 27.5

/-- `MAX_FREQUENCY`: C8, highest piano note. -/
def MAX_FREQUENCY : ℝ := 4186.0

/-- `FREQUENCY_BUFFER_SIZE`: small buffer for median filtering. -/
def FREQUENCY_BUFFER_SIZE : ℕ := 5

/-- `getRMS`: root mean square of the frame. -/
noncomputable def getRMS (buffer : List ℝ) : ℝ :=
  Real.sqrt ((∑ i ∈ Finset.range buffer.length, (buffer.getD i 0) ^ 2) / buffer.length)

/-- The YIN difference function `d(tau)`: sum of squared differences
between the signal and its `tau`-shifted version over
`i < bufferSize - tau`. -/
noncomputable def yinDiff (buffer : List ℝ) (tau : ℕ) : ℝ :=
  ∑ i ∈ Finset.range (buffer.length - tau), (buffer.getD i 0 - buffer.getD (i + tau) 0) ^ 2

/-- The cumulative mean normalised difference function: `1` at lag `0`,
and `d(tau) * tau / (d(1) + ... + d(tau))` elsewhere, with the source's
guard mapping a zero running sum to `1`. -/
noncomputable def yinCMNDF (buffer : List ℝ) (tau : ℕ) : ℝ :=
  if tau = 0 then 1
  else if (∑ u ∈ Finset.Icc 1 tau, yinDiff buffer u) = 0 then 1
  else yinDiff buffer tau * tau / (∑ u ∈ Finset.Icc 1 tau, yinDiff buffer u)

/-- YIN absolute threshold (`const threshold = 0.1`). -/
def yinThreshold : ℝ := 0.1

/-- `tauMin = Math.max(2, Math.floor(sampleRate / MAX_FREQUENCY))`. -/
noncomputable def yinTauMin (sampleRate : ℝ) : ℕ :=
  max 2 ⌊sampleRate / MAX_FREQUENCY⌋.toNat

/-- `tauMax = Math.min(halfSize - 1, Math.floor(sampleRate / MIN_FREQUENCY))`
(as an integer, since `halfSize - 1` can be `-1` on an empty frame). -/
noncomputable def yinTauMaxZ (buffer : List ℝ) (sampleRate : ℝ) : ℤ :=
  min ((buffer.length / 2 : ℕ) - 1) ⌊sampleRate / MIN_FREQUENCY⌋

/-- The lag range `[tauMin, tauMax)` scanned by both YIN loops. -/
noncomputable def yinRange (buffer : List ℝ) (sampleRate : ℝ) : List ℕ :=
  List.range' (yinTauMin sampleRate) ((yinTauMaxZ buffer sampleRate).toNat - yinTauMin sampleRate)

/-- The source's walk `while (tau + 1 < tauMax && yin[tau+1] < yin[tau]) tau++`:
descend to the local minimum of the dip that crossed the threshold. -/
noncomputable def walkDown (f : ℕ → ℝ) (tauMax : ℕ) (t : ℕ) : ℕ :=
  if h : t + 1 < tauMax ∧ f (t + 1) < f t then walkDown f tauMax (t + 1) else t
termination_by tauMax - t
decreasing_by omega

/-- One step of the fallback scan for the global minimum
(`if (yin[tau] < bestValue) { bestValue = yin[tau]; bestTau = tau }`). -/
noncomputable def yinMinStep (f : ℕ → ℝ) (s : ℝ × ℤ) (t : ℕ) : ℝ × ℤ :=
  if f t < s.1 then (f t, (t : ℤ)) else s

/-- `parabolicInterpolation`: refine the winning lag by fitting a parabola
through its neighbours, with the source's three guards (boundary lag, zero
denominator, adjustment larger than one sample). -/
noncomputable def parabolicInterpolation (f : ℕ → ℝ) (tau : ℕ) (maxTau : ℤ) : ℝ :=
  if tau = 0 ∨ maxTau - 1 ≤ (tau : ℤ) then (tau : ℝ)
  else
    let s0 := f (tau - 1)
    let s1 := f tau
    let s2 := f (tau + 1)
    let denominator := 2 * (2 * s1 - s2 - s0)
    if denominator = 0 then (tau : ℝ)
    else
      let adjustment := (s2 - s0) / denominator
      if 1 < |adjustment| then (tau : ℝ) else (tau : ℝ) + adjustment

/-- `detectPitchYIN`: early exit on silence, first CMNDF dip below the
threshold (descending to its local minimum), fallback to the global
minimum only when it is at most `0.5`, parabolic refinement, and the
final conversion `sampleRate / refinedTau`. -/
noncomputable def detectPitchYIN (buffer : List ℝ) (sampleRate : ℝ) : ℝ :=
  if getRMS buffer < SIGNAL_THRESHOLD then 0
  else
    match (yinRange buffer sampleRate).find?
        (fun t => decide (yinCMNDF buffer t < yinThreshold)) with
    | some t =>
        sampleRate / parabolicInterpolation (yinCMNDF buffer)
          (walkDown (yinCMNDF buffer) (yinTauMaxZ buffer sampleRate).toNat t)
          (yinTauMaxZ buffer sampleRate)
    | none =>
        if 0.5 < ((yinRange buffer sampleRate).foldl (yinMinStep (yinCMNDF buffer)) (1, -1)).1
        then 0
        else if ((yinRange buffer sampleRate).foldl
            (yinMinStep (yinCMNDF buffer)) (1, -1)).2 < 0 then 0
        else sampleRate / parabolicInterpolation (yinCMNDF buffer)
          ((yinRange buffer sampleRate).foldl
            (yinMinStep (yinCMNDF buffer)) (1, -1)).2.toNat
          (yinTauMaxZ buffer sampleRate)

/-- The source's `[...frequencies].sort((a, b) => a - b)`: ascending sort. -/
noncomputable def sortedAsc (frequencies : List ℝ) : List ℝ :=
  frequencies.mergeSort (fun a b => a ≤ b)

/-- `getMedianFrequency`: median via an ascending sort, averaging the two
middle elements on even length (the source's local `sorted` and `mid` are
shared through `sortedAsc` and repeated `length / 2`). -/
noncomputable def getMedianFrequency (frequencies : List ℝ) : ℝ :=
  if frequencies.length = 0 then 0
  else if frequencies.length = 1 then frequencies.headI
  else if (sortedAsc frequencies).length % 2 = 0 then
    ((sortedAsc frequencies).getD ((sortedAsc frequencies).length / 2 - 1) 0 +
      (sortedAsc frequencies).getD ((sortedAsc frequencies).length / 2) 0) / 2
  else (sortedAsc frequencies).getD ((sortedAsc frequencies).length / 2) 0

/-- `isFrequencyConsistent`: within `tolerancePercent` (source default `5`)
of the median of the recent readings; vacuously true with fewer than two
readings. -/
noncomputable def isFrequencyConsistent (newFreq : ℝ) (recentFrequencies : List ℝ)
    (tolerancePercent : ℝ) : Bool :=
  if recentFrequencies.length < 2 then true
  else
    decide (|newFreq - getMedianFrequency recentFrequencies| ≤
      getMedianFrequency recentFrequencies * (tolerancePercent / 100))

/-- `correctOctaveError`: fold a candidate near double (within `0.1`) or
half (within `0.05`) of the buffer median back to the expected octave;
needs at least three recent readings. -/
noncomputable def correctOctaveError (newFreq : ℝ) (recentFrequencies : List ℝ) : ℝ :=
  if recentFrequencies.length < 3 then newFreq
  else if |newFreq / getMedianFrequency recentFrequencies - 2| < 0.1 then newFreq / 2
  else if |newFreq / getMedianFrequency recentFrequencies - 0.5| < 0.05 then newFreq * 2
  else newFreq

/-! ### `utils/note-detector.ts` -/

/-- `NoteDetectionResult` of `note-detector.ts`. -/
structure NoteDetectionResult where
  note : String
  noteName : String
  octave : ℤ
  frequency : JSVal
  smoothedFrequency : ℝ
  cents : JSVal
  tuningStatus : TuningStatus
  confidence : ℝ
  isLocked : Bool

/-- The mutable fields of the `NoteDetector` class, passed explicitly. -/
structure NoteDetectorState where
  frequencyBuffer : List ℝ
  bufferSize : ℕ
  lastValidNoteInfo : Option NoteInfo
  noteHoldCounter : ℕ

/-- `noteHoldThreshold = 2`: require 2 consistent readings to change note. -/
def noteHoldThreshold : ℕ := 2

/-- The detector as constructed by `new NoteDetector()`. -/
def initialDetector : NoteDetectorState :=
  { frequencyBuffer := [], bufferSize := FREQUENCY_BUFFER_SIZE,
    lastValidNoteInfo := none, noteHoldCounter := 0 }

/-- `Math.round(x * 10) / 10`: rounding to one decimal for display. -/
noncomputable def round10 (x : ℝ) : ℝ := ((round (x * 10) : ℤ) : ℝ) / 10

/-- The buffer after `detectNote`'s octave correction, push and
overflow shift. -/
noncomputable def NoteDetectorState.updatedBuffer (s : NoteDetectorState) (frequency : ℝ) :
    List ℝ :=
  if s.bufferSize < (s.frequencyBuffer ++ [correctOctaveError frequency s.frequencyBuffer]).length
  then (s.frequencyBuffer ++ [correctOctaveError frequency s.frequencyBuffer]).tail
  else s.frequencyBuffer ++ [correctOctaveError frequency s.frequencyBuffer]

/-- The median-smoothed frequency `detectNote` computes for a frame. -/
noncomputable def NoteDetectorState.smoothed (s : NoteDetectorState) (frequency : ℝ) : ℝ :=
  getMedianFrequency (s.updatedBuffer frequency)

/-- The note `detectNote` maps the current frame to (before hysteresis). -/
noncomputable def NoteDetectorState.mappedNote (s : NoteDetectorState)
    (frequency referenceFreq : ℝ) (useFlats : Bool) : NoteInfo :=
  findClosestNote (JSVal.fin (s.smoothed frequency)) referenceFreq useFlats

/-- The result record `{...noteInfo, smoothedFrequency, confidence,
isLocked: true}` shared by the confirmed-note return paths. -/
noncomputable def lockedResult (noteInfo : NoteInfo) (smoothedFrequency confidence : ℝ) :
    NoteDetectionResult :=
  { note := noteInfo.note, noteName := noteInfo.noteName, octave := noteInfo.octave,
    frequency := noteInfo.frequency, smoothedFrequency := round10 smoothedFrequency,
    cents := noteInfo.cents, tuningStatus := noteInfo.tuningStatus,
    confidence := confidence, isLocked := true }

/-- The `confidence = bufferFillRatio * consistencyScore` computed by
`detectNote` for a frame. -/
noncomputable def detectConfidence (s : NoteDetectorState) (frequency : ℝ) : ℝ :=
  (((s.updatedBuffer frequency).length : ℝ) / (s.bufferSize : ℝ)) *
    (if isFrequencyConsistent (correctOctaveError frequency s.frequencyBuffer)
        s.frequencyBuffer 5 then 1 else 0.5)

/-- The `lastValidNoteInfo === null` arm of `detectNote`'s hysteresis:
count up, lock the first note once `noteHoldThreshold` consecutive frames
have been seen, otherwise report `null` (still detecting). -/
noncomputable def detectNoteInit (s : NoteDetectorState) (frequency referenceFreq : ℝ)
    (useFlats : Bool) : Option NoteDetectionResult × NoteDetectorState :=
  if noteHoldThreshold ≤ s.noteHoldCounter + 1 then
    (some (lockedResult (s.mappedNote frequency referenceFreq useFlats)
        (s.smoothed frequency) (detectConfidence s frequency)),
     { s with frequencyBuffer := s.updatedBuffer frequency,
              lastValidNoteInfo := some (s.mappedNote frequency referenceFreq useFlats),
              noteHoldCounter := 0 })
  else
    (none, { s with frequencyBuffer := s.updatedBuffer frequency,
                    noteHoldCounter := s.noteHoldCounter + 1 })

/-- The locked arm of `detectNote`'s hysteresis: on a different note count
up and either switch (counter reached `noteHoldThreshold`) or return the
locked note's record with live cents computed against the locked note's
`exactFrequency`; on the same note reset the counter and refresh the
stored note.  The held record mirrors the source's
`{...lastValidNoteInfo, frequency, cents, tuningStatus, smoothedFrequency,
confidence, isLocked: true}` restricted to the declared
`NoteDetectionResult` fields. -/
noncomputable def detectNoteHeld (s : NoteDetectorState) (last : NoteInfo)
    (frequency referenceFreq : ℝ) (useFlats : Bool) :
    Option NoteDetectionResult × NoteDetectorState :=
  if last.note ≠ (s.mappedNote frequency referenceFreq useFlats).note then
    if noteHoldThreshold ≤ s.noteHoldCounter + 1 then
      (some (lockedResult (s.mappedNote frequency referenceFreq useFlats)
          (s.smoothed frequency) (detectConfidence s frequency)),
       { s with frequencyBuffer := s.updatedBuffer frequency,
                lastValidNoteInfo := some (s.mappedNote frequency referenceFreq useFlats),
                noteHoldCounter := 0 })
    else
      let cents := jsRound (jsMul 1200 (jsLog2 (jsDiv (JSVal.fin (s.smoothed frequency))
        last.exactFrequency)))
      (some { note := last.note, noteName := last.noteName, octave := last.octave,
              frequency := JSVal.fin (s.smoothed frequency),
              smoothedFrequency := round10 (s.smoothed frequency),
              cents := cents, tuningStatus := statusOfCents cents,
              confidence := detectConfidence s frequency, isLocked := true },
       { s with frequencyBuffer := s.updatedBuffer frequency,
                noteHoldCounter := s.noteHoldCounter + 1 })
  else
    (some (lockedResult (s.mappedNote frequency referenceFreq useFlats)
        (s.smoothed frequency) (detectConfidence s frequency)),
     { s with frequencyBuffer := s.updatedBuffer frequency,
              lastValidNoteInfo := some (s.mappedNote frequency referenceFreq useFlats),
              noteHoldCounter := 0 })

/-- `NoteDetector.detectNote`: octave correction, consistency check,
buffer update, median smoothing, note mapping, and the hysteresis state
machine (initial provisional phase, different-note counting against
`noteHoldThreshold`, cents against the locked note's exact frequency in
the held branch).  Returns the source's `NoteDetectionResult | null`
together with the updated detector state. -/
noncomputable def detectNote (s : NoteDetectorState) (frequency referenceFreq : ℝ)
    (useFlats : Bool) : Option NoteDetectionResult × NoteDetectorState :=
  if frequency ≤ 0 then (none, s)
  else
    match s.lastValidNoteInfo with
    | none => detectNoteInit s frequency referenceFreq useFlats
    | some last => detectNoteHeld s last frequency referenceFreq useFlats

/-! ### `hooks/use-tuner.ts` -/

/-- The display state owned by the `useTuner` hook, plus the detector ref
and a flag recording whether the `SIGNAL_HOLD_TIME` reset timer has been
scheduled. -/
structure TunerState where
  currentFrequency : Option ℝ
  displayFrequency : Option ℝ
  currentNote : Option String
  currentNoteWithoutOctave : Option String
  currentOctave : Option ℤ
  tuningStatus : Option TuningStatus
  cents : JSVal
  signalDetected : Bool
  isNoteLocked : Bool
  detector : NoteDetectorState
  holdTimerPending : Bool

/-- One `analyzeAudio` cycle of `use-tuner.ts` on a captured frame.  The
current revision's `AudioAnalyzer.detectPitch` is
`detectPitchYIN(buffer, sampleRate)`.  On a frame without signal the
callback only schedules the hold-time reset (when a signal was being
displayed); the display fields are untouched within the cycle. -/
noncomputable def analyzeAudio (st : TunerState) (buffer : List ℝ)
    (sampleRate referenceFreq : ℝ) (useFlats : Bool) : TunerState :=
  if SIGNAL_THRESHOLD < getRMS buffer then
    if MIN_FREQUENCY < detectPitchYIN buffer sampleRate ∧
        detectPitchYIN buffer sampleRate < MAX_FREQUENCY then
      match detectNote st.detector (detectPitchYIN buffer sampleRate) referenceFreq useFlats with
      | (some noteInfo, d) =>
          { currentFrequency := some (detectPitchYIN buffer sampleRate),
            displayFrequency := some noteInfo.smoothedFrequency,
            currentNote := some noteInfo.note,
            currentNoteWithoutOctave := some noteInfo.noteName,
            currentOctave := some noteInfo.octave,
            tuningStatus := some noteInfo.tuningStatus,
            cents := noteInfo.cents,
            signalDetected := true,
            isNoteLocked := noteInfo.isLocked,
            detector := d,
            holdTimerPending := false }
      | (none, d) => { st with detector := d, holdTimerPending := false }
    else { st with holdTimerPending := false }
  else if ¬ st.holdTimerPending ∧ st.signalDetected then { st with holdTimerPending := true }
  else st

/-! ### Spec formulas for the note mapper (refinement targets)

The spec states `exact frequency = referenceA4Hz · 2^(roundedSemitoneOffset/12)`
with `roundedSemitoneOffset = round(12·log2(f / referenceA4Hz))`, and
`cents = round(1200·log2(f / exact))`.  These are written from the spec's
words, to be compared against `findClosestNote`. -/

/-- The spec's exact (12-TET) target frequency for input `f` at reference
`referenceFreq`. -/
noncomputable def specExactFrequency (f referenceFreq : ℝ) : ℝ :=
  referenceFreq * (2 : ℝ) ^ (((round (12 * Real.logb 2 (f / referenceFreq)) : ℤ) : ℝ) / 12)

/-- The spec's signed cents deviation for input `f` at reference
`referenceFreq`. -/
noncomputable def specCents (f referenceFreq : ℝ) : ℤ :=
  round (1200 * Real.logb 2 (f / specExactFrequency f referenceFreq))

/-! ### Helper lemmas about the note mapper -/

lemma tmod_lower (n : ℤ) : -12 < n.tmod 12 := by
  rcases le_or_lt 0 n with h | h
  · have := Int.tmod_nonneg (a := n) 12 h
    omega
  · have h2 : (-n).tmod 12 < 12 := Int.tmod_lt_of_pos (-n) (by norm_num)
    have h3 : (-n).tmod 12 = -(n.tmod 12) := by
      rw [Int.tmod_def, Int.tmod_def, Int.neg_tdiv]; ring
    omega

lemma noteIndexOf_nonneg (r : ℤ) : 0 ≤ noteIndexOf r := by
  have h := tmod_lower (midiNoteOf r - 12)
  exact Int.tmod_nonneg 12 (by omega)

lemma noteIndexOf_lt (r : ℤ) : noteIndexOf r < 12 :=
  Int.tmod_lt_of_pos _ (by norm_num)

/-- Evaluation of `findClosestNote` on a finite positive frequency and a
positive reference: the main branch is taken and every field is the
corresponding closed formula. -/
lemma findClosestNote_fin (f referenceFreq : ℝ) (uf : Bool)
    (hf : 0 < f) (href : 0 < referenceFreq) :
    findClosestNote (JSVal.fin f) referenceFreq uf =
      { note := noteNameOf uf (round (12 * Real.logb 2 (f / referenceFreq))) ++
          toString (octaveOf (round (12 * Real.logb 2 (f / referenceFreq)))),
        noteName := noteNameOf uf (round (12 * Real.logb 2 (f / referenceFreq))),
        octave := octaveOf (round (12 * Real.logb 2 (f / referenceFreq))),
        frequency := JSVal.fin f,
        exactFrequency := JSVal.fin (specExactFrequency f referenceFreq),
        cents := JSVal.fin ((specCents f referenceFreq : ℤ) : ℝ),
        tuningStatus := statusOfCents (JSVal.fin ((specCents f referenceFreq : ℤ) : ℝ)) } := by
  have h1 : jsDiv (JSVal.fin f) (JSVal.fin referenceFreq) = JSVal.fin (f / referenceFreq) := by
    simp [jsDiv, href.ne']
  have h2 : jsLog2 (JSVal.fin (f / referenceFreq)) =
      JSVal.fin (Real.logb 2 (f / referenceFreq)) := by
    simp [jsLog2, div_pos hf href]
  have hsem : jsMul 12 (jsLog2 (jsDiv (JSVal.fin f) (JSVal.fin referenceFreq))) =
      JSVal.fin (12 * Real.logb 2 (f / referenceFreq)) := by
    rw [h1, h2]; rfl
  have hexact : 0 < specExactFrequency f referenceFreq :=
    mul_pos href (Real.rpow_pos_of_pos (by norm_num) _)
  have h3 : jsDiv (JSVal.fin f) (JSVal.fin (specExactFrequency f referenceFreq)) =
      JSVal.fin (f / specExactFrequency f referenceFreq) := by
    simp [jsDiv, hexact.ne']
  have h4 : jsLog2 (JSVal.fin (f / specExactFrequency f referenceFreq)) =
      JSVal.fin (Real.logb 2 (f / specExactFrequency f referenceFreq)) := by
    simp [jsLog2, div_pos hf hexact]
  have hguard : ¬ (noteIndexOf (round (12 * Real.logb 2 (f / referenceFreq))) < 0 ∨
      12 ≤ noteIndexOf (round (12 * Real.logb 2 (f / referenceFreq)))) := by
    push_neg
    exact ⟨noteIndexOf_nonneg _, noteIndexOf_lt _⟩
  unfold findClosestNote
  simp only [hsem]
  unfold findClosestNoteMain
  rw [if_neg hguard]
  rw [show (referenceFreq * (2 : ℝ) ^
        (((round (12 * Real.logb 2 (f / referenceFreq)) : ℤ) : ℝ) / 12))
      = specExactFrequency f referenceFreq from rfl]
  simp only [h3, h4]
  rfl

/-- Unfolding of `statusOfCents` on a finite integer cents value. -/
lemma statusOfCents_fin_int (c : ℤ) :
    (statusOfCents (JSVal.fin (c : ℝ)) = TuningStatus.flat ↔ c < -5) ∧
    (statusOfCents (JSVal.fin (c : ℝ)) = TuningStatus.sharp ↔ 5 < c) ∧
    (statusOfCents (JSVal.fin (c : ℝ)) = TuningStatus.inTune ↔ -5 ≤ c ∧ c ≤ 5) := by
  have h1 : ((c : ℝ) < -5) ↔ c < -5 := by
    constructor
    · intro h; exact_mod_cast h
    · intro h; exact_mod_cast h
  have h2 : ((5 : ℝ) < (c : ℝ)) ↔ 5 < c := by
    constructor
    · intro h; exact_mod_cast h
    · intro h; exact_mod_cast h
  unfold statusOfCents
  simp only [JSVal.ltR, JSVal.gtR, decide_eq_true_eq]
  split_ifs with ha hb
  · rw [h1] at ha
    exact ⟨⟨fun _ => ha, fun _ => rfl⟩,
           ⟨fun h => absurd h (by decide), fun h => absurd ha (by omega)⟩,
           ⟨fun h => absurd h (by decide), fun h => absurd ha (by omega)⟩⟩
  · rw [h1] at ha
    rw [h2] at hb
    exact ⟨⟨fun h => absurd h (by decide), fun h => absurd h ha⟩,
           ⟨fun _ => hb, fun _ => rfl⟩,
           ⟨fun h => absurd h (by decide), fun h => absurd hb (by omega)⟩⟩
  · rw [h1] at ha
    rw [h2] at hb
    exact ⟨⟨fun h => absurd h (by decide), fun h => absurd h ha⟩,
           ⟨fun h => absurd h (by decide), fun h => absurd h hb⟩,
           ⟨fun _ => ⟨by omega, by omega⟩, fun _ => rfl⟩⟩

/-! ### Claim C1 -/

/-- Claim C1: mapping the exact frequency `referenceFreq · 2^(s/12)` of any
integer semitone offset `s`, at any reference pitch in `[420, 460]`, yields
zero cents. -/
theorem roundtrip_cents_zero (s : ℤ) (referenceFreq : ℝ) (uf : Bool)
    (h1 : 420 ≤ referenceFreq) (h2 : referenceFreq ≤ 460) :
    (findClosestNote (JSVal.fin (referenceFreq * (2 : ℝ) ^ ((s : ℝ) / 12)))
        referenceFreq uf).cents = JSVal.fin 0 := by
  have href : 0 < referenceFreq := by linarith
  have hf : 0 < referenceFreq * (2 : ℝ) ^ ((s : ℝ) / 12) :=
    mul_pos href (Real.rpow_pos_of_pos (by norm_num) _)
  rw [findClosestNote_fin _ _ _ hf href]
  have hratio : (referenceFreq * (2 : ℝ) ^ ((s : ℝ) / 12)) / referenceFreq
      = (2 : ℝ) ^ ((s : ℝ) / 12) := by
    field_simp
  have hlog : Real.logb 2 ((2 : ℝ) ^ ((s : ℝ) / 12)) = (s : ℝ) / 12 := by
    rw [Real.logb_rpow] <;> norm_num
  have hround : round (12 * Real.logb 2
      ((referenceFreq * (2 : ℝ) ^ ((s : ℝ) / 12)) / referenceFreq)) = s := by
    rw [hratio, hlog, mul_div_cancel₀ _ (by norm_num : (12 : ℝ) ≠ 0), round_intCast]
  have hexact : specExactFrequency (referenceFreq * (2 : ℝ) ^ ((s : ℝ) / 12)) referenceFreq
      = referenceFreq * (2 : ℝ) ^ ((s : ℝ) / 12) := by
    unfold specExactFrequency
    rw [hround]
  have hcents : specCents (referenceFreq * (2 : ℝ) ^ ((s : ℝ) / 12)) referenceFreq = 0 := by
    unfold specCents
    rw [hexact, div_self hf.ne', Real.logb_one, mul_zero, round_zero]
  simp [hcents]

/-- Witness for C1 at `s = 0`, reference `440`. -/
theorem roundtrip_cents_zero_witness :
    (420 : ℝ) ≤ 440 ∧ (440 : ℝ) ≤ 460 ∧
    (findClosestNote (JSVal.fin (440 * (2 : ℝ) ^ (((0 : ℤ) : ℝ) / 12))) 440 false).cents
      = JSVal.fin 0 :=
  ⟨by norm_num, by norm_num,
   roundtrip_cents_zero 0 440 false (by norm_num) (by norm_num)⟩

/-! ### Claim C4 -/

/-- Claim C4: on every finite positive frequency and positive reference,
`findClosestNote` returns exactly the spec's exact frequency and cents
formulas, and classifies `flat`/`sharp`/`in-tune` by the `±5` cent bands. -/
theorem findClosestNote_formulas (f referenceFreq : ℝ) (uf : Bool)
    (hf : 0 < f) (href : 0 < referenceFreq) :
    (findClosestNote (JSVal.fin f) referenceFreq uf).exactFrequency
        = JSVal.fin (specExactFrequency f referenceFreq) ∧
    (findClosestNote (JSVal.fin f) referenceFreq uf).cents
        = JSVal.fin ((specCents f referenceFreq : ℤ) : ℝ) ∧
    ((findClosestNote (JSVal.fin f) referenceFreq uf).tuningStatus = TuningStatus.flat
        ↔ specCents f referenceFreq < -5) ∧
    ((findClosestNote (JSVal.fin f) referenceFreq uf).tuningStatus = TuningStatus.sharp
        ↔ 5 < specCents f referenceFreq) ∧
    ((findClosestNote (JSVal.fin f) referenceFreq uf).tuningStatus = TuningStatus.inTune
        ↔ -5 ≤ specCents f referenceFreq ∧ specCents f referenceFreq ≤ 5) := by
  rw [findClosestNote_fin _ _ _ hf href]
  obtain ⟨s1, s2, s3⟩ := statusOfCents_fin_int (specCents f referenceFreq)
  exact ⟨rfl, rfl, s1, s2, s3⟩

/-- Witness for C4 at `f = 440`, reference `440`. -/
theorem findClosestNote_formulas_witness :
    (0 : ℝ) < 440 ∧
    ((findClosestNote (JSVal.fin 440) 440 false).exactFrequency
        = JSVal.fin (specExactFrequency 440 440) ∧
     (findClosestNote (JSVal.fin 440) 440 false).cents
        = JSVal.fin ((specCents 440 440 : ℤ) : ℝ) ∧
     ((findClosestNote (JSVal.fin 440) 440 false).tuningStatus = TuningStatus.flat
        ↔ specCents 440 440 < -5) ∧
     ((findClosestNote (JSVal.fin 440) 440 false).tuningStatus = TuningStatus.sharp
        ↔ 5 < specCents 440 440) ∧
     ((findClosestNote (JSVal.fin 440) 440 false).tuningStatus = TuningStatus.inTune
        ↔ -5 ≤ specCents 440 440 ∧ specCents 440 440 ≤ 5)) :=
  ⟨by norm_num, findClosestNote_formulas 440 440 false (by norm_num) (by norm_num)⟩

/-! ### Claim C7 -/

/-- Claim C7: a non-finite input frequency always produces the explicit
unknown-note fallback record (note `?`, octave `0`, zero cents, `in-tune`,
`exactFrequency` echoing the input); `findClosestNote` is a total function,
so no input throws. -/
theorem findClosestNote_nonfinite (frequency : JSVal) (referenceFreq : ℝ) (uf : Bool)
    (h : frequency.isFinite = false) :
    findClosestNote frequency referenceFreq uf = unknownNoteInfo frequency := by
  cases frequency with
  | fin x => simp [JSVal.isFinite] at h
  | nan => rfl
  | posInf =>
      rcases lt_or_le referenceFreq 0 with hr | hr
      · simp [findClosestNote, jsDiv, jsLog2, jsMul, hr]
      · simp [findClosestNote, jsDiv, jsLog2, jsMul, not_lt.mpr hr,
              (by norm_num : (0 : ℝ) < 12)]
  | negInf =>
      rcases lt_or_le referenceFreq 0 with hr | hr
      · simp [findClosestNote, jsDiv, jsLog2, jsMul, hr,
              (by norm_num : (0 : ℝ) < 12)]
      · simp [findClosestNote, jsDiv, jsLog2, jsMul, not_lt.mpr hr]

/-- Witness for C7 at `NaN`. -/
theorem findClosestNote_nonfinite_witness :
    JSVal.nan.isFinite = false ∧
    findClosestNote JSVal.nan 440 false = unknownNoteInfo JSVal.nan :=
  ⟨rfl, findClosestNote_nonfinite JSVal.nan 440 false rfl⟩

lemma findClosestNoteMain_spelling (frequency : JSVal) (referenceFreq s : ℝ) :
    (findClosestNoteMain frequency referenceFreq true s).octave
        = (findClosestNoteMain frequency referenceFreq false s).octave ∧
    (findClosestNoteMain frequency referenceFreq true s).frequency
        = (findClosestNoteMain frequency referenceFreq false s).frequency ∧
    (findClosestNoteMain frequency referenceFreq true s).exactFrequency
        = (findClosestNoteMain frequency referenceFreq false s).exactFrequency ∧
    (findClosestNoteMain frequency referenceFreq true s).cents
        = (findClosestNoteMain frequency referenceFreq false s).cents ∧
    (findClosestNoteMain frequency referenceFreq true s).tuningStatus
        = (findClosestNoteMain frequency referenceFreq false s).tuningStatus := by
  by_cases hg : noteIndexOf (round s) < 0 ∨ 12 ≤ noteIndexOf (round s)
  · simp [findClosestNoteMain, hg]
  · simp [findClosestNoteMain, hg]

/-! ### Claim C9 -/

/-- Claim C9: the `useFlats` flag never changes the pitch math: octave,
frequency, exact frequency, cents and tuning status agree between the
sharp-spelling and flat-spelling results for every input. -/
theorem useFlats_spelling_only (frequency : JSVal) (referenceFreq : ℝ) :
    (findClosestNote frequency referenceFreq true).octave
        = (findClosestNote frequency referenceFreq false).octave ∧
    (findClosestNote frequency referenceFreq true).frequency
        = (findClosestNote frequency referenceFreq false).frequency ∧
    (findClosestNote frequency referenceFreq true).exactFrequency
        = (findClosestNote frequency referenceFreq false).exactFrequency ∧
    (findClosestNote frequency referenceFreq true).cents
        = (findClosestNote frequency referenceFreq false).cents ∧
    (findClosestNote frequency referenceFreq true).tuningStatus
        = (findClosestNote frequency referenceFreq false).tuningStatus := by
  unfold findClosestNote
  cases hsem : jsMul 12 (jsLog2 (jsDiv frequency (JSVal.fin referenceFreq))) with
  | fin s => exact findClosestNoteMain_spelling frequency referenceFreq s
  | nan => exact ⟨rfl, rfl, rfl, rfl, rfl⟩
  | posInf => exact ⟨rfl, rfl, rfl, rfl, rfl⟩
  | negInf => exact ⟨rfl, rfl, rfl, rfl, rfl⟩

/-! ### Helper lemmas about `detectNote` -/

lemma detectNote_of_none (s : NoteDetectorState) (frequency referenceFreq : ℝ) (useFlats : Bool)
    (hf : 0 < frequency) (hL : s.lastValidNoteInfo = none) :
    detectNote s frequency referenceFreq useFlats = detectNoteInit s frequency referenceFreq useFlats := by
  unfold detectNote
  rw [if_neg (not_le.mpr hf), hL]

lemma detectNote_of_some (s : NoteDetectorState) (last : NoteInfo)
    (frequency referenceFreq : ℝ) (useFlats : Bool)
    (hf : 0 < frequency) (hL : s.lastValidNoteInfo = some last) :
    detectNote s frequency referenceFreq useFlats
      = detectNoteHeld s last frequency referenceFreq useFlats := by
  unfold detectNote
  rw [if_neg (not_le.mpr hf), hL]

/-- A held (stray) frame: locked note, different mapped note, counter not
yet at the threshold. -/
lemma detectNoteHeld_stray (s : NoteDetectorState) (last : NoteInfo)
    (frequency referenceFreq : ℝ) (useFlats : Bool)
    (hne : last.note ≠ (s.mappedNote frequency referenceFreq useFlats).note)
    (hth : s.noteHoldCounter + 1 < noteHoldThreshold) :
    detectNoteHeld s last frequency referenceFreq useFlats
      = (some { note := last.note, noteName := last.noteName, octave := last.octave,
                frequency := JSVal.fin (s.smoothed frequency),
                smoothedFrequency := round10 (s.smoothed frequency),
                cents := jsRound (jsMul 1200 (jsLog2 (jsDiv (JSVal.fin (s.smoothed frequency))
                  last.exactFrequency))),
                tuningStatus := statusOfCents (jsRound (jsMul 1200 (jsLog2
                  (jsDiv (JSVal.fin (s.smoothed frequency)) last.exactFrequency)))),
                confidence := detectConfidence s frequency, isLocked := true },
         { s with frequencyBuffer := s.updatedBuffer frequency,
                  noteHoldCounter := s.noteHoldCounter + 1 }) := by
  unfold detectNoteHeld
  rw [if_pos hne, if_neg (not_le.mpr hth)]

/-- A held frame whose disagreement counter reaches the threshold: the
detector switches to the newly mapped note. -/
lemma detectNoteHeld_switch (s : NoteDetectorState) (last : NoteInfo)
    (frequency referenceFreq : ℝ) (useFlats : Bool)
    (hne : last.note ≠ (s.mappedNote frequency referenceFreq useFlats).note)
    (hth : noteHoldThreshold ≤ s.noteHoldCounter + 1) :
    detectNoteHeld s last frequency referenceFreq useFlats
      = (some (lockedResult (s.mappedNote frequency referenceFreq useFlats)
            (s.smoothed frequency) (detectConfidence s frequency)),
         { s with frequencyBuffer := s.updatedBuffer frequency,
                  lastValidNoteInfo := some (s.mappedNote frequency referenceFreq useFlats),
                  noteHoldCounter := 0 }) := by
  unfold detectNoteHeld
  rw [if_pos hne, if_pos hth]

/-- A held frame that maps to the locked note again: counter resets and
the stored note is refreshed. -/
lemma detectNoteHeld_same (s : NoteDetectorState) (last : NoteInfo)
    (frequency referenceFreq : ℝ) (useFlats : Bool)
    (heq : last.note = (s.mappedNote frequency referenceFreq useFlats).note) :
    detectNoteHeld s last frequency referenceFreq useFlats
      = (some (lockedResult (s.mappedNote frequency referenceFreq useFlats)
            (s.smoothed frequency) (detectConfidence s frequency)),
         { s with frequencyBuffer := s.updatedBuffer frequency,
                  lastValidNoteInfo := some (s.mappedNote frequency referenceFreq useFlats),
                  noteHoldCounter := 0 }) := by
  unfold detectNoteHeld
  rw [if_neg (by simpa using heq)]

/-- Every branch of `detectNote` on a positive frequency stores the
updated buffer in the new state. -/
lemma detectNote_snd_buffer (s : NoteDetectorState) (frequency referenceFreq : ℝ)
    (useFlats : Bool) (hf : 0 < frequency) :
    ((detectNote s frequency referenceFreq useFlats).2).frequencyBuffer
      = s.updatedBuffer frequency := by
  cases hL : s.lastValidNoteInfo with
  | none =>
      rw [detectNote_of_none s frequency referenceFreq useFlats hf hL]
      unfold detectNoteInit
      split_ifs <;> rfl
  | some last =>
      rw [detectNote_of_some s last frequency referenceFreq useFlats hf hL]
      unfold detectNoteHeld
      split_ifs <;> rfl

/-! ### Claim C8 -/

/-- Claim C8: on every frame with positive frequency the octave-corrected
candidate is appended to the buffer unconditionally (in particular it is
never dropped for being tagged inconsistent), the buffer length never
exceeds the configured size, and on overflow exactly the oldest entry is
evicted. -/
theorem buffer_fifo_invariant (s : NoteDetectorState) (frequency referenceFreq : ℝ)
    (useFlats : Bool) (hf : 0 < frequency)
    (hlen : s.frequencyBuffer.length ≤ s.bufferSize) (hsz : 0 < s.bufferSize) :
    ((detectNote s frequency referenceFreq useFlats).2).frequencyBuffer.length ≤ s.bufferSize ∧
    ((detectNote s frequency referenceFreq useFlats).2).frequencyBuffer.getLast?
        = some (correctOctaveError frequency s.frequencyBuffer) ∧
    (s.frequencyBuffer.length < s.bufferSize →
      ((detectNote s frequency referenceFreq useFlats).2).frequencyBuffer
        = s.frequencyBuffer ++ [correctOctaveError frequency s.frequencyBuffer]) ∧
    (s.frequencyBuffer.length = s.bufferSize →
      ((detectNote s frequency referenceFreq useFlats).2).frequencyBuffer
        = s.frequencyBuffer.tail ++ [correctOctaveError frequency s.frequencyBuffer]) := by
  rw [detectNote_snd_buffer s frequency referenceFreq useFlats hf]
  unfold NoteDetectorState.updatedBuffer
  rcases lt_or_eq_of_le hlen with hlt | heq
  · rw [if_neg (by simp; omega)]
    refine ⟨by simp; omega, List.getLast?_concat _, fun _ => rfl, fun h => absurd h (by omega)⟩
  · have hpos : s.frequencyBuffer ≠ [] := by
      intro hnil
      rw [hnil] at heq
      simp at heq
      omega
    obtain ⟨x, xs, hxxs⟩ := List.exists_cons_of_ne_nil hpos
    rw [if_pos (by simp; omega)]
    refine ⟨?_, ?_, fun h => by omega, fun _ => ?_⟩
    · rw [List.length_tail]
      simp
      omega
    · rw [hxxs]
      exact List.getLast?_concat _
    · rw [hxxs]
      rfl

/-- Witness for C8 on the freshly constructed detector at `440` Hz. -/
theorem buffer_fifo_invariant_witness :
    (0 : ℝ) < 440 ∧ initialDetector.frequencyBuffer.length ≤ initialDetector.bufferSize ∧
    0 < initialDetector.bufferSize ∧
    ((detectNote initialDetector 440 440 false).2).frequencyBuffer.getLast?
        = some (correctOctaveError 440 initialDetector.frequencyBuffer) :=
  ⟨by norm_num, by simp [initialDetector], by simp [initialDetector, FREQUENCY_BUFFER_SIZE],
   (buffer_fifo_invariant initialDetector 440 440 false (by norm_num)
      (by simp [initialDetector]) (by simp [initialDetector, FREQUENCY_BUFFER_SIZE])).2.1⟩

/-! ### Claim C10 -/

/-- Claim C10: every non-null result of `detectNote` carries
`isLocked = true`; while the detector is still in its provisional phase
(no stored note and the hold counter below the threshold) it returns
`null` rather than a provisional reading. -/
theorem detectNote_never_provisional (s : NoteDetectorState) (frequency referenceFreq : ℝ)
    (useFlats : Bool) :
    (∀ r, (detectNote s frequency referenceFreq useFlats).1 = some r → r.isLocked = true) ∧
    (s.lastValidNoteInfo = none → s.noteHoldCounter + 1 < noteHoldThreshold →
      (detectNote s frequency referenceFreq useFlats).1 = none) := by
  constructor
  · intro r hr
    by_cases hf : 0 < frequency
    · cases hL : s.lastValidNoteInfo with
      | none =>
          rw [detectNote_of_none s frequency referenceFreq useFlats hf hL] at hr
          unfold detectNoteInit at hr
          split_ifs at hr
          all_goals
            first
            | (simp only [Option.some.injEq] at hr
               subst hr
               rfl)
            | simp at hr
      | some last =>
          rw [detectNote_of_some s last frequency referenceFreq useFlats hf hL] at hr
          unfold detectNoteHeld at hr
          split_ifs at hr <;>
            (simp only [Option.some.injEq] at hr; subst hr; rfl)
    · unfold detectNote at hr
      rw [if_pos (not_lt.mp hf)] at hr
      simp at hr
  · intro hL hth
    by_cases hf : 0 < frequency
    · rw [detectNote_of_none s frequency referenceFreq useFlats hf hL]
      unfold detectNoteInit
      rw [if_neg (not_le.mpr hth)]
    · unfold detectNote
      rw [if_pos (not_lt.mp hf)]

/-- The detector state one consistent frame away from the hold
threshold. -/
noncomputable def provisionalOneAway : NoteDetectorState :=
  { frequencyBuffer := [], bufferSize := 5, lastValidNoteInfo := none, noteHoldCounter := 1 }

/-- Witness for C10: the fresh detector stays silent on its very first
frame, and a detector one frame away from the hold threshold returns a
result with `isLocked = true`. -/
theorem detectNote_never_provisional_witness :
    (detectNote initialDetector 440 440 false).1 = none ∧
    (detectNote provisionalOneAway 440 440 false).1
      = some (lockedResult (provisionalOneAway.mappedNote 440 440 false)
          (provisionalOneAway.smoothed 440) (detectConfidence provisionalOneAway 440)) ∧
    (lockedResult (provisionalOneAway.mappedNote 440 440 false)
        (provisionalOneAway.smoothed 440)
        (detectConfidence provisionalOneAway 440)).isLocked = true := by
  have h1 : (detectNote initialDetector 440 440 false).1 = none :=
    (detectNote_never_provisional initialDetector 440 440 false).2 rfl
      (by norm_num [initialDetector, noteHoldThreshold])
  have h2 : (detectNote provisionalOneAway 440 440 false).1
      = some (lockedResult (provisionalOneAway.mappedNote 440 440 false)
          (provisionalOneAway.smoothed 440) (detectConfidence provisionalOneAway 440)) := by
    rw [detectNote_of_none _ _ _ _ (by norm_num) rfl]
    unfold detectNoteInit
    rw [if_pos (by norm_num [provisionalOneAway, noteHoldThreshold])]
  exact ⟨h1, h2, (detectNote_never_provisional provisionalOneAway 440 440 false).1 _ h2⟩

/-! ### Median and buffer positivity -/

lemma sortedAsc_length (l : List ℝ) : (sortedAsc l).length = l.length := by
  unfold sortedAsc
  exact List.length_mergeSort l

lemma sortedAsc_mem {x : ℝ} {l : List ℝ} : x ∈ sortedAsc l ↔ x ∈ l := by
  unfold sortedAsc
  exact List.mem_mergeSort

lemma getMedianFrequency_pos (l : List ℝ) (hne : l ≠ []) (h : ∀ x ∈ l, 0 < x) :
    0 < getMedianFrequency l := by
  unfold getMedianFrequency
  split_ifs with h0 h1 heven
  · exact absurd (List.length_eq_zero.mp h0) hne
  · obtain ⟨a, ha⟩ := List.length_eq_one.mp h1
    subst ha
    exact h a (List.mem_singleton_self a)
  · have hlen2 : 2 ≤ l.length := by omega
    have hm1 : (sortedAsc l).length / 2 - 1 < (sortedAsc l).length := by
      rw [sortedAsc_length]; omega
    have hm2 : (sortedAsc l).length / 2 < (sortedAsc l).length := by
      rw [sortedAsc_length]; omega
    have p1 : 0 < (sortedAsc l).getD ((sortedAsc l).length / 2 - 1) 0 := by
      rw [List.getD_eq_getElem _ _ hm1]
      exact h _ (sortedAsc_mem.mp (List.getElem_mem hm1))
    have p2 : 0 < (sortedAsc l).getD ((sortedAsc l).length / 2) 0 := by
      rw [List.getD_eq_getElem _ _ hm2]
      exact h _ (sortedAsc_mem.mp (List.getElem_mem hm2))
    linarith
  · have hlen2 : 2 ≤ l.length := by omega
    have hm2 : (sortedAsc l).length / 2 < (sortedAsc l).length := by
      rw [sortedAsc_length]; omega
    rw [List.getD_eq_getElem _ _ hm2]
    exact h _ (sortedAsc_mem.mp (List.getElem_mem hm2))

lemma getMedianFrequency_replicate (n : ℕ) (y : ℝ) :
    getMedianFrequency (List.replicate (n + 1) y) = y := by
  rcases n with _ | m
  · unfold getMedianFrequency
    norm_num
  · have hsort : sortedAsc (List.replicate (m + 2) y) = List.replicate (m + 2) y := by
      apply List.eq_replicate_iff.mpr
      refine ⟨by rw [sortedAsc_length, List.length_replicate], fun b hb => ?_⟩
      exact List.eq_of_mem_replicate (sortedAsc_mem.mp hb)
    unfold getMedianFrequency
    rw [hsort, List.length_replicate]
    have g1 : ∀ i, i < m + 2 → (List.replicate (m + 2) y).getD i 0 = y := by
      intro i hi
      rw [List.getD_eq_getElem _ _ (by rw [List.length_replicate]; omega)]
      simp
    rw [if_neg (by simp), if_neg (by simp)]
    split_ifs with hpar
    · rw [g1 _ (by omega), g1 _ (by omega)]
      ring
    · rw [g1 _ (by omega)]

lemma correctOctaveError_pos (f : ℝ) (l : List ℝ) (hf : 0 < f) :
    0 < correctOctaveError f l := by
  unfold correctOctaveError
  split_ifs
  · exact hf
  · linarith
  · linarith
  · exact hf

lemma correctOctaveError_at_median (y : ℝ) (l : List ℝ) (hy : y ≠ 0)
    (hmed : getMedianFrequency l = y) : correctOctaveError y l = y := by
  unfold correctOctaveError
  rw [hmed, div_self hy]
  have c1 : ¬ |(1 : ℝ) - 2| < 0.1 := by
    rw [show |(1 : ℝ) - 2| = 1 from by rw [abs_of_neg (by norm_num)]; norm_num]
    norm_num
  have c2 : ¬ |(1 : ℝ) - 0.5| < 0.05 := by
    rw [show |(1 : ℝ) - 0.5| = 0.5 from by rw [abs_of_pos (by norm_num)]; norm_num]
    norm_num
  split_ifs with h0
  · rfl
  · rfl

lemma mem_updatedBuffer_pos (s : NoteDetectorState) (f : ℝ) (hf : 0 < f)
    (hb : ∀ x ∈ s.frequencyBuffer, 0 < x) : ∀ x ∈ s.updatedBuffer f, 0 < x := by
  intro x hx
  unfold NoteDetectorState.updatedBuffer at hx
  split_ifs at hx with h
  · rcases List.mem_append.mp (List.mem_of_mem_tail hx) with h1 | h2
    · exact hb x h1
    · rw [List.mem_singleton.mp h2]
      exact correctOctaveError_pos f _ hf
  · rcases List.mem_append.mp hx with h1 | h2
    · exact hb x h1
    · rw [List.mem_singleton.mp h2]
      exact correctOctaveError_pos f _ hf

lemma updatedBuffer_ne_nil (s : NoteDetectorState) (f : ℝ) (hsz : 0 < s.bufferSize) :
    s.updatedBuffer f ≠ [] := by
  unfold NoteDetectorState.updatedBuffer
  split_ifs with h
  · have hpos : 0 <
        ((s.frequencyBuffer ++ [correctOctaveError f s.frequencyBuffer]).tail).length := by
      rw [List.length_tail]
      simp at h ⊢
      omega
    exact List.length_pos.mp hpos
  · simp

lemma smoothed_pos (s : NoteDetectorState) (f : ℝ) (hf : 0 < f)
    (hb : ∀ x ∈ s.frequencyBuffer, 0 < x) (hsz : 0 < s.bufferSize) :
    0 < s.smoothed f := by
  unfold NoteDetectorState.smoothed
  exact getMedianFrequency_pos _ (updatedBuffer_ne_nil s f hsz) (mem_updatedBuffer_pos s f hf hb)

/-! ### Claim C3 -/

/-- Claim C3: while the detector is locked and a disagreeing frame has not
yet reached the switch threshold, the returned cents value is
`round(1200·log2(smoothed / lockedExactFrequency))` — computed against the
locked note's fixed exact frequency, not the newly remapped note's. -/
theorem held_cents_vs_locked_exact (s : NoteDetectorState) (L : NoteInfo) (e : ℝ)
    (frequency referenceFreq : ℝ) (useFlats : Bool)
    (hf : 0 < frequency)
    (hb : ∀ x ∈ s.frequencyBuffer, 0 < x) (hsz : 0 < s.bufferSize)
    (hL : s.lastValidNoteInfo = some L)
    (hE : L.exactFrequency = JSVal.fin e) (he : 0 < e)
    (hne : L.note ≠ (s.mappedNote frequency referenceFreq useFlats).note)
    (hth : s.noteHoldCounter + 1 < noteHoldThreshold) :
    Option.map NoteDetectionResult.cents (detectNote s frequency referenceFreq useFlats).1
      = some (JSVal.fin ((round (1200 * Real.logb 2 (s.smoothed frequency / e)) : ℤ) : ℝ)) := by
  rw [detectNote_of_some s L frequency referenceFreq useFlats hf hL,
      detectNoteHeld_stray s L frequency referenceFreq useFlats hne hth]
  have hsm : 0 < s.smoothed frequency := smoothed_pos s frequency hf hb hsz
  have h1 : jsDiv (JSVal.fin (s.smoothed frequency)) L.exactFrequency
      = JSVal.fin (s.smoothed frequency / e) := by
    rw [hE]
    simp [jsDiv, he.ne']
  have h2 : jsLog2 (JSVal.fin (s.smoothed frequency / e))
      = JSVal.fin (Real.logb 2 (s.smoothed frequency / e)) := by
    simp [jsLog2, div_pos hsm he]
  simp only [Option.map_some']
  show some (jsRound (jsMul 1200 (jsLog2 (jsDiv (JSVal.fin (s.smoothed frequency))
      L.exactFrequency))))
    = some (JSVal.fin ((round (1200 * Real.logb 2 (s.smoothed frequency / e)) : ℤ) : ℝ))
  rw [h1, h2]
  rfl

/-! ### Concrete evaluation helpers (constant buffers) -/

lemma updatedBuffer_replicate (s : NoteDetectorState) (n : ℕ) (y : ℝ) (hy : 0 < y)
    (hb : s.frequencyBuffer = List.replicate n y) (hn : n < s.bufferSize) :
    s.updatedBuffer y = List.replicate (n + 1) y := by
  have hcorr : correctOctaveError y s.frequencyBuffer = y := by
    rcases Nat.lt_or_ge n 3 with h3 | h3
    · unfold correctOctaveError
      rw [if_pos (by rw [hb, List.length_replicate]; omega)]
    · rcases n with _ | m
      · omega
      · exact correctOctaveError_at_median y _ hy.ne'
          (by rw [hb]; exact getMedianFrequency_replicate m y)
  unfold NoteDetectorState.updatedBuffer
  rw [hcorr, hb, ← List.replicate_succ']
  rw [if_neg (by rw [List.length_replicate]; omega)]

lemma smoothed_replicate (s : NoteDetectorState) (n : ℕ) (y : ℝ) (hy : 0 < y)
    (hb : s.frequencyBuffer = List.replicate n y) (hn : n < s.bufferSize) :
    s.smoothed y = y := by
  unfold NoteDetectorState.smoothed
  rw [updatedBuffer_replicate s n y hy hb hn]
  exact getMedianFrequency_replicate n y

lemma mappedNote_replicate (s : NoteDetectorState) (n : ℕ) (y referenceFreq : ℝ)
    (useFlats : Bool) (hy : 0 < y)
    (hb : s.frequencyBuffer = List.replicate n y) (hn : n < s.bufferSize) :
    s.mappedNote y referenceFreq useFlats = findClosestNote (JSVal.fin y) referenceFreq useFlats := by
  unfold NoteDetectorState.mappedNote
  rw [smoothed_replicate s n y hy hb hn]

/-- The exact A♯4 frequency at reference 440 Hz, used as witness input. -/
noncomputable def yWitness : ℝ := 440 * (2 : ℝ) ^ ((1 : ℝ) / 12)

lemma yWitness_pos : 0 < yWitness :=
  mul_pos (by norm_num) (Real.rpow_pos_of_pos (by norm_num) _)

lemma yWitness_note : (findClosestNote (JSVal.fin yWitness) 440 false).note = "A#4" := by
  rw [findClosestNote_fin yWitness 440 false yWitness_pos (by norm_num)]
  have h1 : yWitness / 440 = (2 : ℝ) ^ ((1 : ℝ) / 12) := by
    unfold yWitness
    rw [mul_comm, mul_div_assoc, div_self (by norm_num : (440 : ℝ) ≠ 0), mul_one]
  have h2 : round (12 * Real.logb 2 (yWitness / 440)) = 1 := by
    rw [h1, show Real.logb 2 ((2 : ℝ) ^ ((1 : ℝ) / 12)) = (1 : ℝ) / 12 from by
      rw [Real.logb_rpow] <;> norm_num]
    rw [show (12 : ℝ) * ((1 : ℝ) / 12) = 1 from by norm_num]
    exact round_one
  simp only [h2]
  rfl

/-- A `NoteInfo` for a locked A4 at reference 440 Hz. -/
noncomputable def lockedA4 : NoteInfo :=
  { note := "A4", noteName := "A", octave := 4, frequency := JSVal.fin 440,
    exactFrequency := JSVal.fin 440, cents := JSVal.fin 0, tuningStatus := TuningStatus.inTune }

/-- A detector locked on A4 whose recent buffer already contains two A♯4
readings. -/
noncomputable def strayStart : NoteDetectorState :=
  { frequencyBuffer := List.replicate 2 yWitness, bufferSize := 5,
    lastValidNoteInfo := some lockedA4, noteHoldCounter := 0 }

/-- Witness for C3 at the A♯4 frequency against the locked A4. -/
theorem held_cents_vs_locked_exact_witness :
    0 < yWitness ∧ (∀ x ∈ strayStart.frequencyBuffer, 0 < x) ∧ 0 < strayStart.bufferSize ∧
    strayStart.lastValidNoteInfo = some lockedA4 ∧
    lockedA4.exactFrequency = JSVal.fin 440 ∧ (0 : ℝ) < 440 ∧
    lockedA4.note ≠ (strayStart.mappedNote yWitness 440 false).note ∧
    strayStart.noteHoldCounter + 1 < noteHoldThreshold ∧
    Option.map NoteDetectionResult.cents (detectNote strayStart yWitness 440 false).1
      = some (JSVal.fin
          ((round (1200 * Real.logb 2 (strayStart.smoothed yWitness / 440)) : ℤ) : ℝ)) := by
  have hbpos : ∀ x ∈ strayStart.frequencyBuffer, 0 < x := by
    intro x hx
    rw [List.eq_of_mem_replicate hx]
    exact yWitness_pos
  have hne : lockedA4.note ≠ (strayStart.mappedNote yWitness 440 false).note := by
    rw [mappedNote_replicate strayStart 2 yWitness 440 false yWitness_pos rfl
        (by norm_num [strayStart]), yWitness_note]
    decide
  exact ⟨yWitness_pos, hbpos, by norm_num [strayStart], rfl, rfl, by norm_num, hne,
    by norm_num [strayStart, noteHoldThreshold],
    held_cents_vs_locked_exact strayStart lockedA4 440 yWitness 440 false yWitness_pos hbpos
      (by norm_num [strayStart]) rfl rfl (by norm_num) hne
      (by norm_num [strayStart, noteHoldThreshold])⟩

/-! ### Claim C2 -/

/-- Claim C2: once locked on note `L`, a single frame mapping to a
different note does not change the returned note (name and octave still
`L`'s) and only advances the disagreement counter; when the counter
reaches `noteHoldThreshold` the displayed note switches to the newly
mapped note, exactly once — afterwards the detector is locked on the new
note with a cleared counter, and a further frame mapping to the new note
keeps it (no bounce back without a fresh hold period). -/
theorem note_switch_hysteresis (s : NoteDetectorState) (L : NoteInfo)
    (f1 f2 f3 referenceFreq : ℝ) (useFlats : Bool)
    (hL : s.lastValidNoteInfo = some L) (hc : s.noteHoldCounter = 0)
    (h1 : 0 < f1) (h2 : 0 < f2) (h3 : 0 < f3)
    (hm1 : (s.mappedNote f1 referenceFreq useFlats).note ≠ L.note)
    (hm2 : (((detectNote s f1 referenceFreq useFlats).2).mappedNote f2 referenceFreq
        useFlats).note ≠ L.note)
    (hm3 : (((detectNote (detectNote s f1 referenceFreq useFlats).2 f2 referenceFreq
          useFlats).2).mappedNote f3 referenceFreq useFlats).note
        = (((detectNote s f1 referenceFreq useFlats).2).mappedNote f2 referenceFreq
          useFlats).note) :
    Option.map NoteDetectionResult.note (detectNote s f1 referenceFreq useFlats).1
      = some L.note ∧
    Option.map NoteDetectionResult.noteName (detectNote s f1 referenceFreq useFlats).1
      = some L.noteName ∧
    Option.map NoteDetectionResult.octave (detectNote s f1 referenceFreq useFlats).1
      = some L.octave ∧
    ((detectNote s f1 referenceFreq useFlats).2).lastValidNoteInfo = some L ∧
    ((detectNote s f1 referenceFreq useFlats).2).noteHoldCounter = 1 ∧
    Option.map NoteDetectionResult.note
        (detectNote (detectNote s f1 referenceFreq useFlats).2 f2 referenceFreq useFlats).1
      = some (((detectNote s f1 referenceFreq useFlats).2).mappedNote f2 referenceFreq
          useFlats).note ∧
    ((detectNote (detectNote s f1 referenceFreq useFlats).2 f2 referenceFreq
        useFlats).2).lastValidNoteInfo
      = some (((detectNote s f1 referenceFreq useFlats).2).mappedNote f2 referenceFreq
          useFlats) ∧
    ((detectNote (detectNote s f1 referenceFreq useFlats).2 f2 referenceFreq
        useFlats).2).noteHoldCounter = 0 ∧
    Option.map NoteDetectionResult.note
        (detectNote (detectNote (detectNote s f1 referenceFreq useFlats).2 f2 referenceFreq
          useFlats).2 f3 referenceFreq useFlats).1
      = some (((detectNote s f1 referenceFreq useFlats).2).mappedNote f2 referenceFreq
          useFlats).note := by
  have hth1 : s.noteHoldCounter + 1 < noteHoldThreshold := by
    rw [hc]
    norm_num [noteHoldThreshold]
  have E1 := (detectNote_of_some s L f1 referenceFreq useFlats h1 hL).trans
    (detectNoteHeld_stray s L f1 referenceFreq useFlats (Ne.symm hm1) hth1)
  have hs1L : ((detectNote s f1 referenceFreq useFlats).2).lastValidNoteInfo = some L := by
    rw [E1]
    exact hL
  have hs1c : ((detectNote s f1 referenceFreq useFlats).2).noteHoldCounter = 1 := by
    rw [E1]
    show s.noteHoldCounter + 1 = 1
    rw [hc]
  have hth2 : noteHoldThreshold ≤
      ((detectNote s f1 referenceFreq useFlats).2).noteHoldCounter + 1 := by
    rw [hs1c]
    norm_num [noteHoldThreshold]
  have E2 := (detectNote_of_some _ L f2 referenceFreq useFlats h2 hs1L).trans
    (detectNoteHeld_switch _ L f2 referenceFreq useFlats (Ne.symm hm2) hth2)
  have hs2L : ((detectNote (detectNote s f1 referenceFreq useFlats).2 f2 referenceFreq
      useFlats).2).lastValidNoteInfo
      = some (((detectNote s f1 referenceFreq useFlats).2).mappedNote f2 referenceFreq
          useFlats) := by
    rw [E2]
  have E3 := (detectNote_of_some _ _ f3 referenceFreq useFlats h3 hs2L).trans
    (detectNoteHeld_same _ _ f3 referenceFreq useFlats hm3.symm)
  refine ⟨by rw [E1] <;> rfl, by rw [E1] <;> rfl, by rw [E1] <;> rfl, hs1L, hs1c,
    by rw [E2] <;> rfl, hs2L, by rw [E2] <;> rfl, ?_⟩
  rw [E3]
  show some ((((detectNote (detectNote s f1 referenceFreq useFlats).2 f2 referenceFreq
      useFlats).2).mappedNote f3 referenceFreq useFlats).note) = _
  rw [hm3]

/-- Witness for C2: a locked A4 detector fed three consecutive exact-A♯4
frames at reference 440 Hz. -/
theorem note_switch_hysteresis_witness :
    strayStart.lastValidNoteInfo = some lockedA4 ∧ strayStart.noteHoldCounter = 0 ∧
    0 < yWitness ∧
    (strayStart.mappedNote yWitness 440 false).note ≠ lockedA4.note ∧
    (((detectNote strayStart yWitness 440 false).2).mappedNote yWitness 440 false).note
      ≠ lockedA4.note ∧
    (((detectNote (detectNote strayStart yWitness 440 false).2 yWitness 440
        false).2).mappedNote yWitness 440 false).note
      = (((detectNote strayStart yWitness 440 false).2).mappedNote yWitness 440 false).note ∧
    (Option.map NoteDetectionResult.note (detectNote strayStart yWitness 440 false).1
        = some lockedA4.note ∧
     Option.map NoteDetectionResult.noteName (detectNote strayStart yWitness 440 false).1
        = some lockedA4.noteName ∧
     Option.map NoteDetectionResult.octave (detectNote strayStart yWitness 440 false).1
        = some lockedA4.octave ∧
     ((detectNote strayStart yWitness 440 false).2).lastValidNoteInfo = some lockedA4 ∧
     ((detectNote strayStart yWitness 440 false).2).noteHoldCounter = 1 ∧
     Option.map NoteDetectionResult.note
         (detectNote (detectNote strayStart yWitness 440 false).2 yWitness 440 false).1
       = some (((detectNote strayStart yWitness 440 false).2).mappedNote yWitness 440
           false).note ∧
     ((detectNote (detectNote strayStart yWitness 440 false).2 yWitness 440
         false).2).lastValidNoteInfo
       = some (((detectNote strayStart yWitness 440 false).2).mappedNote yWitness 440
           false) ∧
     ((detectNote (detectNote strayStart yWitness 440 false).2 yWitness 440
         false).2).noteHoldCounter = 0 ∧
     Option.map NoteDetectionResult.note
         (detectNote (detectNote (detectNote strayStart yWitness 440 false).2 yWitness 440
           false).2 yWitness 440 false).1
       = some (((detectNote strayStart yWitness 440 false).2).mappedNote yWitness 440
           false).note) := by
  have hm1 : (strayStart.mappedNote yWitness 440 false).note ≠ lockedA4.note := by
    rw [mappedNote_replicate strayStart 2 yWitness 440 false yWitness_pos rfl
        (by norm_num [strayStart]), yWitness_note]
    decide
  have hth1 : strayStart.noteHoldCounter + 1 < noteHoldThreshold := by
    norm_num [strayStart, noteHoldThreshold]
  have E1 := (detectNote_of_some strayStart lockedA4 yWitness 440 false yWitness_pos
      rfl).trans
    (detectNoteHeld_stray strayStart lockedA4 yWitness 440 false (Ne.symm hm1) hth1)
  have hbuf1 : ((detectNote strayStart yWitness 440 false).2).frequencyBuffer
      = List.replicate 3 yWitness := by
    rw [E1]
    show strayStart.updatedBuffer yWitness = _
    exact updatedBuffer_replicate strayStart 2 yWitness yWitness_pos rfl
      (by norm_num [strayStart])
  have hsz1 : ((detectNote strayStart yWitness 440 false).2).bufferSize = 5 := by
    rw [E1] <;> rfl
  have hm2 : (((detectNote strayStart yWitness 440 false).2).mappedNote yWitness 440
      false).note ≠ lockedA4.note := by
    rw [mappedNote_replicate _ 3 yWitness 440 false yWitness_pos hbuf1
        (by rw [hsz1]; norm_num), yWitness_note]
    decide
  have hs1L : ((detectNote strayStart yWitness 440 false).2).lastValidNoteInfo
      = some lockedA4 := by
    rw [E1] <;> rfl
  have hs1c : ((detectNote strayStart yWitness 440 false).2).noteHoldCounter = 1 := by
    rw [E1] <;> rfl
  have hth2 : noteHoldThreshold ≤
      ((detectNote strayStart yWitness 440 false).2).noteHoldCounter + 1 := by
    rw [hs1c]
    norm_num [noteHoldThreshold]
  have E2 := (detectNote_of_some _ lockedA4 yWitness 440 false yWitness_pos hs1L).trans
    (detectNoteHeld_switch _ lockedA4 yWitness 440 false (Ne.symm hm2) hth2)
  have hbuf2 : ((detectNote (detectNote strayStart yWitness 440 false).2 yWitness 440
      false).2).frequencyBuffer = List.replicate 4 yWitness := by
    rw [E2]
    show ((detectNote strayStart yWitness 440 false).2).updatedBuffer yWitness = _
    exact updatedBuffer_replicate _ 3 yWitness yWitness_pos hbuf1 (by rw [hsz1]; norm_num)
  have hsz2 : ((detectNote (detectNote strayStart yWitness 440 false).2 yWitness 440
      false).2).bufferSize = 5 := by
    rw [E2]
    exact hsz1
  have hm3 : (((detectNote (detectNote strayStart yWitness 440 false).2 yWitness 440
        false).2).mappedNote yWitness 440 false).note
      = (((detectNote strayStart yWitness 440 false).2).mappedNote yWitness 440
        false).note := by
    rw [mappedNote_replicate _ 4 yWitness 440 false yWitness_pos hbuf2
        (by rw [hsz2]; norm_num),
      mappedNote_replicate _ 3 yWitness 440 false yWitness_pos hbuf1
        (by rw [hsz1]; norm_num)]
  exact ⟨rfl, rfl, yWitness_pos, hm1, hm2, hm3,
    note_switch_hysteresis strayStart lockedA4 yWitness yWitness yWitness 440 false rfl rfl
      yWitness_pos yWitness_pos yWitness_pos hm1 hm2 hm3⟩

/-! ### Claim C5 -/

/-- A silent frame: four zero samples. -/
noncomputable def silentFrame : List ℝ := [0, 0, 0, 0]

lemma silentFrame_rms : getRMS silentFrame = 0 := by
  unfold getRMS silentFrame
  norm_num [Finset.sum_range_succ]

lemma silentFrame_rms_lt : getRMS silentFrame < SIGNAL_THRESHOLD := by
  rw [silentFrame_rms]
  norm_num [SIGNAL_THRESHOLD]

/-- A tuner display currently showing a locked A4. -/
noncomputable def lockedDisplay : TunerState :=
  { currentFrequency := some 440, displayFrequency := some 440, currentNote := some "A4",
    currentNoteWithoutOctave := some "A", currentOctave := some 4,
    tuningStatus := some TuningStatus.inTune, cents := JSVal.fin 0, signalDetected := true,
    isNoteLocked := true, detector := initialDetector, holdTimerPending := false }

/-- Counterexample to C5 as stated: on a silent frame (RMS `0`, below the
signal threshold) arriving while a note is displayed, the analysis cycle
keeps `signalDetected = true` and the displayed note — it only schedules
the hold-time reset — rather than yielding `signalPresent = false` and
`note = None` within that cycle. -/
theorem silent_cycle_keeps_display :
    getRMS silentFrame < SIGNAL_THRESHOLD ∧
    (analyzeAudio lockedDisplay silentFrame 44100 440 false).signalDetected = true ∧
    (analyzeAudio lockedDisplay silentFrame 44100 440 false).currentNote = some "A4" := by
  have hstep : analyzeAudio lockedDisplay silentFrame 44100 440 false
      = { lockedDisplay with holdTimerPending := true } := by
    unfold analyzeAudio
    rw [if_neg (by rw [silentFrame_rms]; norm_num [SIGNAL_THRESHOLD])]
    rw [if_pos ⟨by simp [lockedDisplay], by simp [lockedDisplay]⟩]
  exact ⟨silentFrame_rms_lt, by rw [hstep]; rfl, by rw [hstep]; rfl⟩

/-- Claim C5, amended: for a frame whose RMS is below the signal
threshold, `detectPitchYIN` reports no pitch (`0`), and the analysis cycle
displays nothing new: `signalDetected` and the displayed note are left
exactly as they were (the cycle at most schedules the hold-time reset); in
particular, from a state with no signal and no note the cycle yields
`signalPresent = false` and `note = None`. -/
theorem silent_frame_no_new_display (st : TunerState) (buffer : List ℝ)
    (sampleRate referenceFreq : ℝ) (useFlats : Bool)
    (h : getRMS buffer < SIGNAL_THRESHOLD) :
    detectPitchYIN buffer sampleRate = 0 ∧
    (analyzeAudio st buffer sampleRate referenceFreq useFlats).signalDetected
      = st.signalDetected ∧
    (analyzeAudio st buffer sampleRate referenceFreq useFlats).currentNote
      = st.currentNote ∧
    (st.signalDetected = false → st.currentNote = none →
      (analyzeAudio st buffer sampleRate referenceFreq useFlats).signalDetected = false ∧
      (analyzeAudio st buffer sampleRate referenceFreq useFlats).currentNote = none) := by
  have hyin : detectPitchYIN buffer sampleRate = 0 := by
    unfold detectPitchYIN
    rw [if_pos h]
  have hns : ¬ SIGNAL_THRESHOLD < getRMS buffer := not_lt.mpr (le_of_lt h)
  unfold analyzeAudio
  rw [if_neg hns]
  split_ifs with hcond
  · exact ⟨hyin, rfl, rfl, fun h1 h2 => ⟨h1, h2⟩⟩
  · exact ⟨hyin, rfl, rfl, fun h1 h2 => ⟨h1, h2⟩⟩

/-- The idle tuner display (nothing detected yet). -/
noncomputable def idleDisplay : TunerState :=
  { currentFrequency := none, displayFrequency := none, currentNote := none,
    currentNoteWithoutOctave := none, currentOctave := none, tuningStatus := none,
    cents := JSVal.fin 0, signalDetected := false, isNoteLocked := false,
    detector := initialDetector, holdTimerPending := false }

/-- Witness for the amended C5 on the idle display and a silent frame. -/
theorem silent_frame_no_new_display_witness :
    getRMS silentFrame < SIGNAL_THRESHOLD ∧
    (detectPitchYIN silentFrame 44100 = 0 ∧
     (analyzeAudio idleDisplay silentFrame 44100 440 false).signalDetected
       = idleDisplay.signalDetected ∧
     (analyzeAudio idleDisplay silentFrame 44100 440 false).currentNote
       = idleDisplay.currentNote ∧
     (idleDisplay.signalDetected = false → idleDisplay.currentNote = none →
       (analyzeAudio idleDisplay silentFrame 44100 440 false).signalDetected = false ∧
       (analyzeAudio idleDisplay silentFrame 44100 440 false).currentNote = none)) :=
  ⟨silentFrame_rms_lt,
   silent_frame_no_new_display idleDisplay silentFrame 44100 440 false silentFrame_rms_lt⟩

/-! ### Claim C6 -/

lemma pairwise_lt_range' : ∀ (n a : ℕ), (List.range' a n).Pairwise (· < ·) := by
  intro n
  induction n with
  | zero => intro a; simp
  | succ k ih =>
      intro a
      rw [List.range'_succ]
      refine List.pairwise_cons.mpr ⟨fun b hb => ?_, ih (a + 1)⟩
      have := List.mem_range'_1.mp hb
      omega

lemma yinRange_pairwise (buffer : List ℝ) (sampleRate : ℝ) :
    (yinRange buffer sampleRate).Pairwise (· < ·) := by
  unfold yinRange
  exact pairwise_lt_range' _ _

lemma find?_pairwise_first (p : ℕ → Bool) : ∀ (l : List ℕ), l.Pairwise (· < ·) →
    ∀ t ∈ l, p t = true → (∀ u ∈ l, u < t → p u = false) → l.find? p = some t := by
  intro l
  induction l with
  | nil => intro _ t ht; simp at ht
  | cons a as ih =>
      intro hpw t ht hp hfirst
      rcases List.pairwise_cons.mp hpw with ⟨ha, has⟩
      by_cases hat : a = t
      · subst hat
        exact List.find?_cons_of_pos _ hp
      · have hta : t ∈ as := by
          rcases List.mem_cons.mp ht with h | h
          · exact absurd h.symm hat
          · exact h
        have hpa : p a = false := hfirst a (List.mem_cons_self a as) (ha t hta)
        rw [List.find?_cons_of_neg _ (by simp [hpa])]
        exact ih has t hta hp (fun u hu hut => hfirst u (List.mem_cons_of_mem a hu) hut)

lemma yinMinStep_foldl_const (f : ℕ → ℝ) : ∀ (l : List ℕ) (acc : ℝ × ℤ),
    (∀ t ∈ l, ¬ f t < acc.1) → l.foldl (yinMinStep f) acc = acc := by
  intro l
  induction l with
  | nil => intro acc _; rfl
  | cons a as ih =>
      intro acc h
      rw [List.foldl_cons,
        show yinMinStep f acc a = acc from by
          unfold yinMinStep
          rw [if_neg (h a (List.mem_cons_self a as))]]
      exact ih acc (fun t ht => h t (List.mem_cons_of_mem a ht))

lemma yinMinStep_foldl_argmin (f : ℕ → ℝ) (m : ℕ) : ∀ (l : List ℕ) (acc : ℝ × ℤ),
    l.Pairwise (· < ·) → m ∈ l → f m < acc.1 →
    (∀ t ∈ l, f m ≤ f t) → (∀ t ∈ l, t < m → f m < f t) →
    l.foldl (yinMinStep f) acc = (f m, (m : ℤ)) := by
  intro l
  induction l with
  | nil => intro acc _ hm; simp at hm
  | cons a as ih =>
      intro acc hpw hmem hacc hle hlt
      rcases List.pairwise_cons.mp hpw with ⟨ha, has⟩
      rw [List.foldl_cons]
      by_cases ham : a = m
      · subst ham
        rw [show yinMinStep f acc a = (f a, (a : ℤ)) from by
          unfold yinMinStep
          rw [if_pos hacc]]
        exact yinMinStep_foldl_const f as _
          (fun t ht => not_lt.mpr (hle t (List.mem_cons_of_mem a ht)))
      · have hma : m ∈ as := by
          rcases List.mem_cons.mp hmem with h | h
          · exact absurd h.symm ham
          · exact h
        have hfa : f m < f a := hlt a (List.mem_cons_self a as) (ha m hma)
        have hacc' : f m < (yinMinStep f acc a).1 := by
          unfold yinMinStep
          split_ifs
          · exact hfa
          · exact hacc
        exact ih _ has hma hacc' (fun t ht => hle t (List.mem_cons_of_mem a ht))
          (fun t ht htm => hlt t (List.mem_cons_of_mem a ht) htm)

lemma yinMinStep_foldl_gt (f : ℕ → ℝ) (c : ℝ) : ∀ (l : List ℕ) (acc : ℝ × ℤ),
    (∀ t ∈ l, c < f t) → c < acc.1 → c < (l.foldl (yinMinStep f) acc).1 := by
  intro l
  induction l with
  | nil => intro acc _ h; exact h
  | cons a as ih =>
      intro acc h hacc
      rw [List.foldl_cons]
      refine ih _ (fun t ht => h t (List.mem_cons_of_mem a ht)) ?_
      unfold yinMinStep
      split_ifs
      · exact h a (List.mem_cons_self a as)
      · exact hacc

/-- Claim C6: on a frame that passes the silence gate, `detectPitchYIN`
(a) returns `sampleRate` over the parabolic refinement of the walked-down
first lag whose CMNDF drops below the `0.1` threshold, when such a lag
exists in the band-derived range; (b) when no lag crosses the threshold,
returns the frequency at the (earliest) global CMNDF minimum of the range
when that minimum is at most `0.5`; and (c) returns `0` (no pitch) when
even the global minimum exceeds `0.5`. -/
theorem yin_threshold_scan_and_fallback (buffer : List ℝ) (sampleRate : ℝ)
    (h : ¬ getRMS buffer < SIGNAL_THRESHOLD) :
    (∀ t ∈ yinRange buffer sampleRate, yinCMNDF buffer t < yinThreshold →
      (∀ u ∈ yinRange buffer sampleRate, u < t → ¬ yinCMNDF buffer u < yinThreshold) →
      detectPitchYIN buffer sampleRate
        = sampleRate / parabolicInterpolation (yinCMNDF buffer)
            (walkDown (yinCMNDF buffer) (yinTauMaxZ buffer sampleRate).toNat t)
            (yinTauMaxZ buffer sampleRate)) ∧
    ((∀ t ∈ yinRange buffer sampleRate, ¬ yinCMNDF buffer t < yinThreshold) →
      (∀ m ∈ yinRange buffer sampleRate, yinCMNDF buffer m ≤ 0.5 →
        (∀ t ∈ yinRange buffer sampleRate, yinCMNDF buffer m ≤ yinCMNDF buffer t) →
        (∀ t ∈ yinRange buffer sampleRate, t < m → yinCMNDF buffer m < yinCMNDF buffer t) →
        detectPitchYIN buffer sampleRate
          = sampleRate / parabolicInterpolation (yinCMNDF buffer) m
              (yinTauMaxZ buffer sampleRate)) ∧
      ((∀ t ∈ yinRange buffer sampleRate, 0.5 < yinCMNDF buffer t) →
        detectPitchYIN buffer sampleRate = 0)) := by
  constructor
  · intro t ht hlt hfirst
    have hfind : (yinRange buffer sampleRate).find?
        (fun u => decide (yinCMNDF buffer u < yinThreshold)) = some t :=
      find?_pairwise_first _ _ (yinRange_pairwise buffer sampleRate) t ht
        (by simpa using hlt) (fun u hu hut => by simpa using hfirst u hu hut)
    unfold detectPitchYIN
    rw [if_neg h]
    simp only [hfind]
  · intro hnone
    have hfind : (yinRange buffer sampleRate).find?
        (fun u => decide (yinCMNDF buffer u < yinThreshold)) = none :=
      List.find?_eq_none.mpr (fun u hu => by simpa using hnone u hu)
    constructor
    · intro m hm hm05 hmin hfirstm
      have hfold : (yinRange buffer sampleRate).foldl (yinMinStep (yinCMNDF buffer)) (1, -1)
          = (yinCMNDF buffer m, (m : ℤ)) :=
        yinMinStep_foldl_argmin _ m _ _ (yinRange_pairwise buffer sampleRate) hm
          (lt_of_le_of_lt hm05 (by norm_num)) hmin hfirstm
      unfold detectPitchYIN
      rw [if_neg h]
      simp only [hfind]
      rw [hfold]
      rw [if_neg (show ¬ (0.5 : ℝ) < (yinCMNDF buffer m, (m : ℤ)).1 from not_lt.mpr hm05)]
      rw [if_neg (show ¬ (yinCMNDF buffer m, (m : ℤ)).2 < 0 from
        not_lt.mpr (Int.natCast_nonneg m))]
      simp
    · intro hall
      have hgt : (0.5 : ℝ) <
          ((yinRange buffer sampleRate).foldl (yinMinStep (yinCMNDF buffer)) (1, -1)).1 :=
        yinMinStep_foldl_gt _ _ _ _ hall (by norm_num)
      unfold detectPitchYIN
      rw [if_neg h]
      simp only [hfind]
      rw [if_pos hgt]

/-- A period-2 square frame of eight samples, used as YIN witness input. -/
noncomputable def squareFrame : List ℝ := [1, -1, 1, -1, 1, -1, 1, -1]

lemma squareFrame_rms : getRMS squareFrame = 1 := by
  unfold getRMS squareFrame
  norm_num [Finset.sum_range_succ, List.getD_cons_zero, List.getD_cons_succ, Real.sqrt_one]

lemma squareFrame_diff_one : yinDiff squareFrame 1 = 28 := by
  unfold yinDiff squareFrame
  norm_num [Finset.sum_range_succ, List.getD_cons_zero, List.getD_cons_succ]

lemma squareFrame_diff_two : yinDiff squareFrame 2 = 0 := by
  unfold yinDiff squareFrame
  norm_num [Finset.sum_range_succ, List.getD_cons_zero, List.getD_cons_succ]

lemma squareFrame_cmndf_two : yinCMNDF squareFrame 2 = 0 := by
  have hsum : (∑ u ∈ Finset.Icc 1 2, yinDiff squareFrame u) = 28 := by
    rw [show Finset.Icc 1 2 = ({1, 2} : Finset ℕ) from by decide]
    rw [Finset.sum_insert (by decide), Finset.sum_singleton,
      squareFrame_diff_one, squareFrame_diff_two]
    norm_num
  unfold yinCMNDF
  rw [if_neg (by norm_num), hsum, if_neg (by norm_num), squareFrame_diff_two]
  norm_num

lemma squareFrame_range : yinRange squareFrame 100 = [2] := by
  unfold yinRange yinTauMin yinTauMaxZ
  rw [show ⌊(100 : ℝ) / MAX_FREQUENCY⌋ = 0 from
      Int.floor_eq_zero_iff.mpr (by constructor <;> norm_num [MAX_FREQUENCY]),
    show ⌊(100 : ℝ) / MIN_FREQUENCY⌋ = 3 from
      Int.floor_eq_iff.mpr (by constructor <;> norm_num [MIN_FREQUENCY]),
    show squareFrame.length = 8 from by unfold squareFrame; rfl]
  norm_num
  rfl

/-- Witness for C6 on the square frame at sample rate 100: the scan finds
its first sub-threshold lag at `tau = 2`. -/
theorem yin_threshold_scan_and_fallback_witness :
    (¬ getRMS squareFrame < SIGNAL_THRESHOLD) ∧
    2 ∈ yinRange squareFrame 100 ∧
    yinCMNDF squareFrame 2 < yinThreshold ∧
    (∀ u ∈ yinRange squareFrame 100, u < 2 → ¬ yinCMNDF squareFrame u < yinThreshold) ∧
    detectPitchYIN squareFrame 100
      = 100 / parabolicInterpolation (yinCMNDF squareFrame)
          (walkDown (yinCMNDF squareFrame) (yinTauMaxZ squareFrame 100).toNat 2)
          (yinTauMaxZ squareFrame 100) := by
  have hrms : ¬ getRMS squareFrame < SIGNAL_THRESHOLD := by
    rw [squareFrame_rms]
    norm_num [SIGNAL_THRESHOLD]
  have hm : 2 ∈ yinRange squareFrame 100 := by
    rw [squareFrame_range]
    exact List.mem_singleton_self 2
  have hcmlt : yinCMNDF squareFrame 2 < yinThreshold := by
    rw [squareFrame_cmndf_two]
    norm_num [yinThreshold]
  have hfirst : ∀ u ∈ yinRange squareFrame 100, u < 2 →
      ¬ yinCMNDF squareFrame u < yinThreshold := by
    intro u hu
    rw [squareFrame_range] at hu
    rw [List.mem_singleton.mp hu]
    omega
  exact ⟨hrms, hm, hcmlt, hfirst,
    (yin_threshold_scan_and_fallback squareFrame 100 hrms).1 2 hm hcmlt hfirst⟩

end Tempotuner
